import Mathlib

/-!
Verification development for the PatternFlow Perceiver recognition module
(src/recognition/an_perceiver/{perceiver.py, preprocessing.py, experiment.py}).

The Python sources are embedded shallowly:
  * `perceiver.py` defines `Perceiver.__init__` (layer allocation) and
    `Perceiver.call` (the weight-shared attention iteration).  The layer
    classes themselves live in a `layers` module of the repository that is
    not among the supplied sources; the structural embedding below therefore
    keeps the layer objects abstract (type parameters) and receives their
    constructors (`LayerLib`) and their forward semantics (`LayerSemantics`)
    as data.  Facts about the orchestration in `perceiver.py` are proved for
    every such instantiation.
  * Concrete layer behaviour needed by some claims is modelled from the
    specification (each such definition carries a `Modelled from the spec:`
    doc comment), over exact rationals, with the transcendental functions
    (sin/cos bands, the softmax exponential, the 1/sqrt score scale)
    abstracted as parameters, since they do not admit executable rational
    definitions and no claim depends on their values.
  * `preprocessing.py` and `experiment.py` are embedded directly where a
    claim needs them (the `hflip` map, and the keyword-argument binding of
    the `preprocess` call inside `run_experiment`).
-/

namespace PatternFlow

/-! ## Structural embedding of perceiver.py

`Perceiver.__init__` stores: `num_blocks`, one `Latent` layer, one
`FourierPositionEmbedding` layer, one `CrossAttention` layer, a list of
`num_self_attends_per_block` freshly constructed `SelfAttention` layers, and
one `ClassificationDecoder` layer.  The layer object types are abstract. -/

structure Perceiver (LA FE CA SA CD : Type) where
  num_blocks : Nat
  latent : LA
  fourier_enc : FE
  cross_attention : CA
  self_attentions : List SA
  logits : CD

/-- Constructors of the `layers` module (repository code outside the supplied
sources).  `mkSelf` receives, besides `num_heads`, the allocation index of
the list comprehension `[SelfAttention(...) for _ in range(S)]`: each
iteration allocates a fresh layer object with its own parameters, and the
index stands for that fresh allocation. -/
structure LayerLib (LA FE CA SA CD : Type) where
  mkLatent : Nat → Nat → LA
  mkFourier : Nat → FE
  mkCross : Nat → CA
  mkSelf : Nat → Nat → SA
  mkDecoder : Nat → CD

/-- Embedding of `Perceiver.__init__` (perceiver.py lines 8-30): allocate the
latent layer from `latent_dim`/`latent_channels`, the Fourier layer from
`num_freq_bands`, one cross-attention layer from `num_cross_heads`, a list of
`num_self_attends_per_block` self-attention layers each from
`num_self_attend_heads`, and the decoder from `num_classes`. -/
def Perceiver.init (lib : LayerLib LA FE CA SA CD)
    (num_blocks num_self_attends_per_block num_cross_heads
     num_self_attend_heads latent_dim latent_channels
     num_freq_bands num_classes : Nat) : Perceiver LA FE CA SA CD :=
  { num_blocks := num_blocks
    latent := lib.mkLatent latent_dim latent_channels
    fourier_enc := lib.mkFourier num_freq_bands
    cross_attention := lib.mkCross num_cross_heads
    self_attentions :=
      (List.range num_self_attends_per_block).map
        (fun i => lib.mkSelf num_self_attend_heads i)
    logits := lib.mkDecoder num_classes }

/-- Forward semantics of the five layer kinds, on abstract tensor types
`I` (raw input), `L` (latent array), `E` (encoded input), `O` (logits). -/
structure LayerSemantics (LA FE CA SA CD I L E O : Type) where
  latentApply : LA → I → L
  fourierApply : FE → I → E
  crossApply : CA → L → E → L
  selfApply : SA → L → L
  decoderApply : CD → L → O

/-- Embedding of `Perceiver.call` (perceiver.py lines 32-44):
`latent_array = self.latent(inputs)`; `inputs_enc = self.fourier_enc(inputs)`
(computed once, before the loop); `attn_block(z, *args)` reduces the stored
`self_attentions` list with `attend(z)` starting from
`self.cross_attention(z, inputs_enc)`; `z = reduce(attn_block,
range(self.num_blocks), latent_array)`; finally `self.logits(z)`.
Python `functools.reduce` is `List.foldl`; `attn_block` ignores the loop
index (`*args`). -/
def Perceiver.call (p : Perceiver LA FE CA SA CD)
    (sem : LayerSemantics LA FE CA SA CD I L E O) (inputs : I) : O :=
  let latent_array := sem.latentApply p.latent inputs
  let inputs_enc := sem.fourierApply p.fourier_enc inputs
  let attn_block : L → Nat → L := fun z _ =>
    p.self_attentions.foldl (fun z attend => sem.selfApply attend z)
      (sem.crossApply p.cross_attention z inputs_enc)
  let z := (List.range p.num_blocks).foldl attn_block latent_array
  sem.decoderApply p.logits z

/-- Total learned attention parameter count of a model, for arbitrary
per-layer counting functions `countCross` and `countSelf` (the layer
internals are outside the supplied sources): the cross-attention layer's
count plus the sum over the stored self-attention layers. -/
def Perceiver.attnParamCount (p : Perceiver LA FE CA SA CD)
    (countCross : CA → Nat) (countSelf : SA → Nat) : Nat :=
  countCross p.cross_attention + (p.self_attentions.map countSelf).sum

/-- One outer-iteration transition: cross-attend the latent against the
(fixed) encoded input, then fold the stored self-attention layers over it. -/
def Perceiver.block (p : Perceiver LA FE CA SA CD)
    (sem : LayerSemantics LA FE CA SA CD I L E O) (enc : E) (z : L) : L :=
  p.self_attentions.foldl (fun z attend => sem.selfApply attend z)
    (sem.crossApply p.cross_attention z enc)

/-- Folding a function that ignores the range element is iteration. -/
theorem foldl_range_const (f : L → L) (init : L) :
    ∀ n : Nat, (List.range n).foldl (fun z _ => f z) init = f^[n] init := by
  intro n
  induction n with
  | zero => simp
  | succ n ih =>
      rw [List.range_succ, List.foldl_append, ih, List.foldl_cons,
        List.foldl_nil, ← Function.iterate_succ_apply' f n init]

/-- C1: A `Perceiver` constructed with `num_blocks = B` and
`num_self_attends_per_block = S` allocates exactly one cross-attention layer
(the single `cross_attention` field) and exactly `S` self-attention layers,
and the stored layer objects do not depend on `B`; hence for every way of
counting the learned parameters of one attention layer, the total attention
parameter count is `1` cross count plus the sum over the `S` self counts,
identical for any two block counts `B` and B2 (in particular `B = 8` and
`B = 2`).  That each of the `B` outer iterations of `call` applies these
same stored objects is the content of the `call`-unfolding theorem for C2,
which runs the one `block` function built from these fields `B` times. -/
theorem perceiver_attention_params_independent_of_blocks
    (lib : LayerLib LA FE CA SA CD)
    (countCross : CA → Nat) (countSelf : SA → Nat)
    (B B2 S hc hs ld lc fb nc : Nat) :
    (Perceiver.init lib B S hc hs ld lc fb nc).self_attentions.length = S ∧
    (Perceiver.init lib B S hc hs ld lc fb nc).cross_attention =
      (Perceiver.init lib B2 S hc hs ld lc fb nc).cross_attention ∧
    (Perceiver.init lib B S hc hs ld lc fb nc).self_attentions =
      (Perceiver.init lib B2 S hc hs ld lc fb nc).self_attentions ∧
    (Perceiver.init lib B S hc hs ld lc fb nc).attnParamCount
        countCross countSelf =
      (Perceiver.init lib B2 S hc hs ld lc fb nc).attnParamCount
        countCross countSelf := by
  refine ⟨?_, rfl, rfl, rfl⟩
  simp [Perceiver.init]

/-- C2: a forward pass encodes the input once (`enc`, computed before the
loop and fixed across iterations), folds the latent array through
`num_blocks` outer iterations of `block` — one cross-attention of the latent
against `enc` followed by the stored self-attention layers folded in their
construction order — and applies the classification decoder to the result.
Stated for every layer semantics, every model and every input. -/
theorem perceiver_call_structure
    (p : Perceiver LA FE CA SA CD)
    (sem : LayerSemantics LA FE CA SA CD I L E O) (inputs : I) :
    p.call sem inputs =
      sem.decoderApply p.logits
        ((p.block sem (sem.fourierApply p.fourier_enc inputs))^[p.num_blocks]
          (sem.latentApply p.latent inputs)) := by
  simp only [Perceiver.call, Perceiver.block]
  rw [foldl_range_const]
  rfl

/-- C9: with `num_blocks = 0`, `reduce` over `range(0)` returns the initial
latent array untouched, so `call` is the decoder applied directly to the
initial latent: no cross-attention and no self-attention is applied, and the
output does not depend on the allocated attention layers (the right-hand
side mentions only the latent and decoder layers). -/
theorem perceiver_zero_blocks_skips_attention
    (lib : LayerLib LA FE CA SA CD)
    (sem : LayerSemantics LA FE CA SA CD I L E O)
    (S hc hs ld lc fb nc : Nat) (inputs : I) :
    (Perceiver.init lib 0 S hc hs ld lc fb nc).call sem inputs =
      sem.decoderApply (lib.mkDecoder nc)
        (sem.latentApply (lib.mkLatent ld lc) inputs) := by
  simp [Perceiver.call, Perceiver.init]

/-! ## Embedding of preprocessing.py: hflip

An image is a rank-3 array (height, width, channels), here a list of rows,
each row a list of pixels, each pixel a list of rational channel values; a
label is an integer tensor scalar. -/

/-- `tf.image.flip_left_right`: reverse the image along its width axis
(axis 1 of a height-width-channels image), leaving rows and channels in
place. -/
def flip_left_right (image : List (List (List ℚ))) : List (List (List ℚ)) :=
  image.map List.reverse

/-- Embedding of `hflip` (preprocessing.py lines 8-12): horizontally flip
the image and reverse the label, returning
`(tf.image.flip_left_right(image), 1 - label)`. -/
def hflip (sample : List (List (List ℚ)) × ℤ) : List (List (List ℚ)) × ℤ :=
  (flip_left_right sample.1, 1 - sample.2)

/-- C10: for every image and every binary label `l ∈ {0, 1}`, applying
`hflip` twice returns the original pair: reversing each row twice is the
identity on the image, and `l ↦ 1 - l` is an involution (on all of `ℤ`, so
in particular on `{0, 1}`). -/
theorem hflip_hflip (image : List (List (List ℚ))) (l : ℤ)
    (hl : l = 0 ∨ l = 1) :
    hflip (hflip (image, l)) = (image, l) := by
  simp [hflip, flip_left_right, List.map_map, Function.comp]

/-- Witness for C10 at a concrete 1x2x1 image and label 0. -/
theorem hflip_hflip_witness :
    hflip (hflip ([[[ (1 : ℚ)], [2]]], 0)) = ([[[ (1 : ℚ)], [2]]], 0) :=
  hflip_hflip [[[ (1 : ℚ)], [2]]] 0 (Or.inl rfl)

/-! ## Embedding of experiment.py: the preprocess call in run_experiment

`run_experiment` (experiment.py lines 13-71), after `tfds.load` returns the
three splits (an external collaborator, taken as given), calls

  `preprocess(*splits, batch_size=opts.batch_size, num_classes=num_classes,
              image_dims=opts.image_dims)`

`preprocess` (preprocessing.py lines 36-45) declares the parameters
`train, validation, test, num_classes, image_dims, hflip_concat,
train_batch_size, eval_batch_size` and no `**kwargs`, so Python raises
`TypeError: preprocess() got an unexpected keyword argument` for
`batch_size` while binding the call, before the function body runs and
before `Perceiver(...)` on line 32 is evaluated.  The binding rules are
embedded below and `run_experiment` is the `Except`-sequencing of the
`preprocess` call binding followed by model construction. -/

/-- The parameter names of `preprocess`, in declaration order. -/
def preprocessParamNames : List String :=
  ["train", "validation", "test", "num_classes", "image_dims",
   "hflip_concat", "train_batch_size", "eval_batch_size"]

/-- Python call binding for a function with positional-or-keyword parameters
`params` and no `**kwargs`, called with `npos` positional arguments and the
keyword names `kwargs`: fails with a TypeError if more positional arguments
than parameters are given, if a keyword is not among the parameter names, or
if a keyword names a parameter already bound positionally. -/
def bindPythonCall (fname : String) (params : List String) (npos : Nat)
    (kwargs : List String) : Except String Unit :=
  if params.length < npos then
    Except.error (fname ++ " takes at most " ++ toString params.length ++
      " positional arguments")
  else
    match kwargs.find? (fun k => !(params.contains k)) with
    | some k =>
        Except.error (fname ++ " got an unexpected keyword argument " ++ k)
    | none =>
        match kwargs.find? (fun k => (params.take npos).contains k) with
        | some k =>
            Except.error (fname ++ " got multiple values for argument " ++ k)
        | none => Except.ok ()

/-- The command-line options consumed by `run_experiment` up to the point of
model construction (experiment.py `get_opts`). -/
structure Opts where
  batch_size : Nat
  image_dims : Option (Nat × Nat)
  num_blocks : Nat
  num_self_attends_per_block : Nat
  num_cross_heads : Nat
  num_self_attend_heads : Nat
  latent_dim : Nat
  latent_channels : Nat
  num_freq_bands : Nat

/-- Embedding of `run_experiment` (experiment.py lines 13-41) up to model
construction, with `tfds.load` already done (its result enters only through
`num_classes` and the three splits bound positionally via `*splits`): first
bind the `preprocess` call — three positional arguments from `*splits` and
the keywords `batch_size`, `num_classes`, `image_dims` — then construct the
`Perceiver` from the options. -/
def run_experiment (lib : LayerLib LA FE CA SA CD) (opts : Opts)
    (num_classes : Nat) : Except String (Perceiver LA FE CA SA CD) := do
  let _ ← bindPythonCall "preprocess" preprocessParamNames 3
    ["batch_size", "num_classes", "image_dims"]
  Except.ok (Perceiver.init lib opts.num_blocks
    opts.num_self_attends_per_block opts.num_cross_heads
    opts.num_self_attend_heads opts.latent_dim opts.latent_channels
    opts.num_freq_bands num_classes)

/-- C4: for every options value (and every class count and layer library),
`run_experiment` fails with the TypeError for the unexpected keyword
argument `batch_size` — `batch_size` is not among `preprocess`'s parameter
names, whose batch-size parameters are `train_batch_size` and
`eval_batch_size` — and therefore never returns a constructed model: the
result is the error, not an `Except.ok` holding a `Perceiver`. -/
theorem run_experiment_unexpected_keyword
    (lib : LayerLib LA FE CA SA CD) (opts : Opts) (num_classes : Nat) :
    run_experiment lib opts num_classes =
      Except.error "preprocess got an unexpected keyword argument batch_size" := by
  rfl

/-! ## Spec-modelled concrete layers

The `layers` module (Latent, FourierPositionEmbedding, CrossAttention,
SelfAttention, ClassificationDecoder) belongs to the repository but is not
among the supplied sources, so its behaviour is modelled from the
specification.  Tensors are lists of lists of rationals; the transcendental
ingredients are abstracted into a `Numerics` record. -/

/-- The non-rational numeric ingredients of the modelled layers: `sinBand a
k x` and `cosBand a k x` stand for `sin(2 pi f_k x)` and `cos(2 pi f_k x)`
for axis `a` and band `k`, `softExp` for the softmax exponential, and
`invSqrt d` for the `1 / sqrt(head_dim)` score scale.  Every theorem below
holds for all values of these functions. -/
structure Numerics where
  sinBand : Nat → Nat → ℚ → ℚ
  cosBand : Nat → Nat → ℚ → ℚ
  softExp : ℚ → ℚ
  invSqrt : Nat → ℚ

/-- Spatial coordinate `i` of `n`, normalized to `[-1, 1]`
(`-1 + 2 i / (n - 1)`; rational division by zero is zero for `n = 1`). -/
def normCoord (i n : Nat) : ℚ :=
  -1 + 2 * (i : ℚ) / ((n : ℚ) - 1)

/-- The `2 K` Fourier features of one normalized coordinate `x` on axis `a`:
for each of the `K` bands, its sine then its cosine value. -/
def bandFeatures (ν : Numerics) (K : Nat) (a : Nat) (x : ℚ) : List ℚ :=
  (List.range K).flatMap (fun k => [ν.sinBand a k x, ν.cosBand a k x])

/-- Modelled from the spec: `FourierPositionEmbedding.call` of the missing
`layers` module (spec section 4.1).  For each spatial position `(i, j)` of
the height-width-channels image, the raw channel values at that position are
concatenated with the `2 K` features of the normalized row coordinate (axis
0) and the `2 K` features of the normalized column coordinate (axis 1), and
the positions are flattened row-major into one sequence dimension
(`num_input_positions = height * width` rows of
`raw_channels + 2 * K * 2` entries). -/
def fourierEncode (ν : Numerics) (K : Nat)
    (image : List (List (List ℚ))) : List (List ℚ) :=
  let h := image.length
  (image.enum.map (fun rowi =>
    let w := rowi.2.length
    rowi.2.enum.map (fun pixj =>
      pixj.2 ++ bandFeatures ν K 0 (normCoord rowi.1 h) ++
        bandFeatures ν K 1 (normCoord pixj.1 w)))).flatten

/-- C7: with band count `K = 0` the Fourier encoder is the identity on the
raw channel content: it returns exactly the flattened raw channel rows (one
row per spatial position, row-major), with no positional features appended —
for every choice of the sine/cosine band functions and every image. -/
theorem fourierEncode_zero_bands (ν : Numerics)
    (image : List (List (List ℚ))) :
    fourierEncode ν 0 image = image.flatten := by
  simp [fourierEncode, bandFeatures]

/-! ## Spec-modelled attention primitive

List-of-rows matrices over exact rationals, with the standard ragged-safe
conventions: the column count of a matrix is the length of its first row,
and missing entries read as `0`. -/

/-- Dot product of two rows (excess entries of the longer row ignored). -/
def dotProd (xs ys : List ℚ) : ℚ :=
  (List.zipWith (· * ·) xs ys).sum

/-- Column count of a list-of-rows matrix. -/
def matCols (B : List (List ℚ)) : Nat :=
  (B.headD []).length

/-- Column `j` of a list-of-rows matrix (missing entries read as `0`). -/
def matCol (B : List (List ℚ)) (j : Nat) : List ℚ :=
  B.map (fun r => r.getD j 0)

/-- Matrix product: row `i`, column `j` of `matMul A B` is the dot product
of row `i` of `A` with column `j` of `B`. -/
def matMul (A B : List (List ℚ)) : List (List ℚ) :=
  A.map (fun row => (List.range (matCols B)).map (fun j => dotProd row (matCol B j)))

/-- Product of `A` with the transpose of `B`: entry `(i, j)` is the dot
product of row `i` of `A` with row `j` of `B`. -/
def matMulT (A B : List (List ℚ)) : List (List ℚ) :=
  A.map (fun row => B.map (fun brow => dotProd row brow))

/-- Scale every entry of a matrix by `c`. -/
def scaleMat (c : ℚ) (A : List (List ℚ)) : List (List ℚ) :=
  A.map (fun r => r.map (fun x => c * x))

/-- Entrywise sum of two matrices of equal shape. -/
def addMat (A B : List (List ℚ)) : List (List ℚ) :=
  List.zipWith (List.zipWith (· + ·)) A B

/-- Maximum entry of a row (its head for the empty row). -/
def rowMax (r : List ℚ) : ℚ :=
  r.foldl max (r.headD 0)

/-- Numerically stabilized softmax of one score row: subtract the row
maximum, exponentiate with `e`, normalize by the sum. -/
def softmaxRow (e : ℚ → ℚ) (r : List ℚ) : List ℚ :=
  let w := r.map (fun x => e (x - rowMax r))
  w.map (fun x => x / w.sum)

/-- Per-head projection weights of one attention instance: query, key and
value projections (input channels by head dimension). -/
structure HeadWeights where
  wq : List (List ℚ)
  wk : List (List ℚ)
  wv : List (List ℚ)

/-- The learned parameters of one attention instance: one projection weight
set per head, and the final output projection `wo` (concatenated head
channels by query channel dimension). -/
structure AttnWeights where
  heads : List HeadWeights
  wo : List (List ℚ)

/-- Modelled from the spec: one head of the shared attention primitive
(spec section 4.3, steps 1-2) of the missing `layers` module.  Project the
query source and the key/value source with this head's learned projections,
form the scaled scores `Q Kᵗ / sqrt(head_dim)` (the head dimension is the
column count of `wq`; `invSqrt` stands for the reciprocal square root),
apply the max-subtracted softmax row-wise over the key dimension, and
weight the values. -/
def headOutput (ν : Numerics) (hw : HeadWeights) (q kv : List (List ℚ)) :
    List (List ℚ) :=
  let Q := matMul q hw.wq
  let K := matMul kv hw.wk
  let V := matMul kv hw.wv
  let scores := scaleMat (ν.invSqrt (matCols hw.wq)) (matMulT Q K)
  matMul (scores.map (softmaxRow ν.softExp)) V

/-- Concatenate the per-head outputs along the channel axis (`n` = query
row count). -/
def concatHeads (n : Nat) (outs : List (List (List ℚ))) : List (List ℚ) :=
  outs.foldl (fun acc o => List.zipWith (· ++ ·) acc o) (List.replicate n [])

/-- Modelled from the spec: the shared attention primitive (spec section
4.3) of the missing `layers` module.  Compute every head's output, concat
the heads along the channel axis, apply the final learned projection `wo`
back to the query channel dimension, and add the residual connection
(output + original query source). -/
def attnApply (ν : Numerics) (w : AttnWeights) (q kv : List (List ℚ)) :
    List (List ℚ) :=
  addMat (matMul (concatHeads q.length (w.heads.map (fun hw => headOutput ν hw q kv))) w.wo) q

/-- The all-zero matrix with `m` rows and `n` columns. -/
def zeroMat (m n : Nat) : List (List ℚ) :=
  List.replicate m (List.replicate n 0)

/-- One attention head with all projection weights zero (query channels
`dq`, key/value channels `dkv`, head dimension `hd`). -/
def zeroHead (dq dkv hd : Nat) : HeadWeights :=
  { wq := zeroMat dq hd, wk := zeroMat dkv hd, wv := zeroMat dkv hd }

/-- An `H`-head attention instance with every projection weight (per-head
and final) set to zero. -/
def zeroAttnWeights (H dq dkv hd : Nat) : AttnWeights :=
  { heads := List.replicate H (zeroHead dq dkv hd), wo := zeroMat (H * hd) dq }

theorem dotProd_replicate_zero (row : List ℚ) :
    ∀ m, dotProd row (List.replicate m (0 : ℚ)) = 0 := by
  induction row with
  | nil => intro m; simp [dotProd]
  | cons x xs ih =>
      intro m
      cases m with
      | zero => simp [dotProd]
      | succ k =>
          simp only [List.replicate_succ, dotProd, List.zipWith_cons_cons,
            List.sum_cons, mul_zero, zero_add]
          simpa [dotProd] using ih k

theorem getD_replicate_zero (n j : Nat) :
    (List.replicate n (0 : ℚ)).getD j 0 = 0 := by
  induction n generalizing j with
  | zero => simp
  | succ k ih => cases j <;> simp [List.replicate_succ, ih]

theorem matCol_zeroMat (m n j : Nat) :
    matCol (zeroMat m n) j = List.replicate m 0 := by
  simp [matCol, zeroMat, List.map_replicate, getD_replicate_zero]

theorem matCols_zeroMat (m n : Nat) (hm : 0 < m) :
    matCols (zeroMat m n) = n := by
  cases m with
  | zero => exact absurd hm (by simp)
  | succ k => simp [matCols, zeroMat, List.replicate_succ]

/-- Multiplying any matrix by an all-zero matrix with at least one row
yields all-zero rows of the zero matrix's column count. -/
theorem matMul_zeroMat (A : List (List ℚ)) (m n : Nat) (hm : 0 < m) :
    matMul A (zeroMat m n) = A.map (fun _ => List.replicate n 0) := by
  simp [matMul, matCols_zeroMat m n hm, matCol_zeroMat, dotProd_replicate_zero,
    List.map_const']

theorem foldl_zipWith_append_length :
    ∀ (outs : List (List (List ℚ))) (acc : List (List ℚ)),
      (∀ o ∈ outs, o.length = acc.length) →
      (outs.foldl (fun acc o => List.zipWith (· ++ ·) acc o) acc).length = acc.length := by
  intro outs
  induction outs with
  | nil => intro acc _; rfl
  | cons o os ih =>
      intro acc h
      rw [List.foldl_cons]
      have hlen : (List.zipWith (· ++ ·) acc o).length = acc.length := by
        rw [List.length_zipWith, h o (by simp), Nat.min_self]
      rw [ih _ (by intro o' ho'; rw [hlen]; exact h o' (List.mem_cons_of_mem _ ho')), hlen]

theorem concatHeads_length (outs : List (List (List ℚ))) (n : Nat)
    (h : ∀ o ∈ outs, o.length = n) : (concatHeads n outs).length = n := by
  have hb := foldl_zipWith_append_length outs (List.replicate n ([] : List ℚ))
    (by simpa using h)
  simpa [concatHeads] using hb

theorem headOutput_length (ν : Numerics) (hw : HeadWeights)
    (q kv : List (List ℚ)) : (headOutput ν hw q kv).length = q.length := by
  simp [headOutput, matMul, matMulT, scaleMat]

theorem zipWith_add_replicate_zero (row : List ℚ) :
    ∀ dq, row.length ≤ dq →
      List.zipWith (· + ·) (List.replicate dq (0 : ℚ)) row = row := by
  induction row with
  | nil => intro dq _; simp
  | cons x xs ih =>
      intro dq h
      cases dq with
      | zero => exact absurd h (by simp)
      | succ d => simp [List.replicate_succ, ih d (by simpa using h)]

theorem addMat_zero_rows (dq : Nat) :
    ∀ (a b : List (List ℚ)), a.length = b.length →
      (∀ row ∈ b, row.length = dq) →
      addMat (a.map (fun _ => List.replicate dq (0 : ℚ))) b = b := by
  intro a
  induction a with
  | nil =>
      intro b hlen _
      simp [addMat, (List.length_eq_zero.mp hlen.symm)]
  | cons x xs ih =>
      intro b hlen hrows
      cases b with
      | nil => simp [addMat]
      | cons row rows =>
          simp only [List.map_cons, addMat, List.zipWith_cons_cons]
          refine congrArg₂ _ ?_ ?_
          · exact zipWith_add_replicate_zero row dq
              (le_of_eq (hrows row (by simp)))
          · exact ih rows (by simpa using hlen)
              (fun r hr => hrows r (List.mem_cons_of_mem _ hr))

/-- C8: an attention primitive instance with every projection weight set to
zero (any head count `H ≥ 1`, any head dimension `hd ≥ 1`) returns its
query-source array unchanged, for every key/value source, every query
source whose rows have the configured query channel count `dq`, and every
choice of the softmax exponential and score scale: the final zero
projection annihilates the concatenated head outputs and the residual
connection passes the query source through. -/
theorem attn_zero_weights_residual (ν : Numerics) (H dq dkv hd : Nat)
    (hH : 0 < H) (hhd : 0 < hd) (q kv : List (List ℚ))
    (hq : ∀ row ∈ q, row.length = dq) :
    attnApply ν (zeroAttnWeights H dq dkv hd) q kv = q := by
  have hconcat : (concatHeads q.length
      ((List.replicate H (zeroHead dq dkv hd)).map
        (fun hw => headOutput ν hw q kv))).length = q.length := by
    apply concatHeads_length
    intro o ho
    rcases List.mem_map.mp ho with ⟨hw, _, rfl⟩
    exact headOutput_length ν hw q kv
  simp only [attnApply, zeroAttnWeights]
  rw [matMul_zeroMat _ (H * hd) dq (Nat.mul_pos hH hhd)]
  exact addMat_zero_rows dq _ q hconcat hq

/-- Witness for C8: one head of dimension one, query channels `dq = 2`,
key/value channels `dkv = 1`, a concrete 2-row query source and 1-row
key/value source, and the identity as exponential and scale surrogate. -/
theorem attn_zero_weights_residual_witness :
    0 < 1 ∧ (0 : Nat) < 1 ∧
      (∀ row ∈ [[(1 : ℚ), 2], [3, 4]], row.length = 2) ∧
      attnApply ⟨fun _ _ _ => 0, fun _ _ _ => 0, fun x => x, fun _ => 1⟩
        (zeroAttnWeights 1 2 1 1) [[(1 : ℚ), 2], [3, 4]] [[5]] =
        [[(1 : ℚ), 2], [3, 4]] :=
  ⟨Nat.one_pos, Nat.one_pos, by decide,
    attn_zero_weights_residual ⟨fun _ _ _ => 0, fun _ _ _ => 0, fun x => x, fun _ => 1⟩
      1 2 1 1 Nat.one_pos Nat.one_pos [[(1 : ℚ), 2], [3, 4]] [[5]] (by decide)⟩

/-! ## Concrete instantiation of the layer stack

The five layer kinds instantiated with spec-modelled concrete objects over
rationals: the latent layer holds its learned initial array, the Fourier
layer its band count, the attention layers their projection weights, the
decoder its class count and projection weights. -/

/-- Learned state of the `Latent` layer: the initial latent array. -/
structure LatentParams where
  init_latent : List (List ℚ)

/-- Configuration of the `FourierPositionEmbedding` layer (no learned
parameters, spec section 4.1). -/
structure FourierParams where
  num_bands : Nat

/-- Learned state of the `ClassificationDecoder` layer: class count and the
final projection weights (latent channels by classes). -/
structure DecoderParams where
  num_classes : Nat
  w : List (List ℚ)

/-- Mean pooling over the latent_dim axis (the rows): one value per latent
channel. -/
def meanPool (z : List (List ℚ)) : List ℚ :=
  (List.range (matCols z)).map (fun j => (matCol z j).sum / (z.length : ℚ))

/-- Modelled from the spec: `ClassificationDecoder.call` of the missing
`layers` module (spec section 4.4): mean-pool the latent array over the
latent_dim axis, then apply one learned linear projection to `num_classes`
logits (no activation). -/
def decoderApplyOne (d : DecoderParams) (z : List (List ℚ)) : List ℚ :=
  (List.range d.num_classes).map (fun j => dotProd (meanPool z) (matCol d.w j))

/-- Initial parameter values for a freshly constructed model: entries of the
learned latent array, the attention weight sets (per head count, and per
allocation index for the self-attention list), and the decoder projection. -/
structure ParamInit where
  latentInit : Nat → Nat → ℚ
  crossW : Nat → AttnWeights
  selfW : Nat → Nat → AttnWeights
  decoderW : Nat → List (List ℚ)

/-- The concrete layer constructors: `Latent(dim, num_channels)` builds its
dim-by-channels learned array, `FourierPositionEmbedding(num_bands)` stores
the band count, the attention layers receive their fresh weight sets from
`θ`, and `ClassificationDecoder(num_classes)` stores the class count and its
projection weights. -/
def concreteLib (θ : ParamInit) :
    LayerLib LatentParams FourierParams AttnWeights AttnWeights DecoderParams :=
  { mkLatent := fun d c =>
      { init_latent :=
          (List.range d).map (fun i => (List.range c).map (fun j => θ.latentInit i j)) }
    mkFourier := fun k => { num_bands := k }
    mkCross := fun h => θ.crossW h
    mkSelf := fun h i => θ.selfW h i
    mkDecoder := fun n => { num_classes := n, w := θ.decoderW n } }

/-- Forward semantics of the concrete layers on a single sample:  the
latent layer returns its learned array (input-independent), the Fourier
layer encodes the image, cross-attention attends the latent against the
encoding, self-attention attends the latent against itself, the decoder
produces the logits row. -/
def singleSem (ν : Numerics) :
    LayerSemantics LatentParams FourierParams AttnWeights AttnWeights
      DecoderParams (List (List (List ℚ))) (List (List ℚ)) (List (List ℚ))
      (List ℚ) :=
  { latentApply := fun l _ => l.init_latent
    fourierApply := fun f img => fourierEncode ν f.num_bands img
    crossApply := fun w z e => attnApply ν w z e
    selfApply := fun w z => attnApply ν w z z
    decoderApply := fun d z => decoderApplyOne d z }

/-- Modelled from the spec: batch handling of the missing `layers` module
(spec section 5): the batch dimension is handled by broadcasting every
per-position operation independently per sample — each layer maps its
single-sample semantics over the batch (the latent layer broadcasts its one
learned array to every sample; cross-attention pairs each sample's latent
with that sample's encoding). -/
def batchSem (ν : Numerics) :
    LayerSemantics LatentParams FourierParams AttnWeights AttnWeights
      DecoderParams (List (List (List (List ℚ)))) (List (List (List ℚ)))
      (List (List (List ℚ))) (List (List ℚ)) :=
  { latentApply := fun l imgs => imgs.map (fun _ => l.init_latent)
    fourierApply := fun f imgs => imgs.map (fun img => fourierEncode ν f.num_bands img)
    crossApply := fun w zs es => List.zipWith (fun z e => attnApply ν w z e) zs es
    selfApply := fun w zs => zs.map (fun z => attnApply ν w z z)
    decoderApply := fun d zs => zs.map (fun z => decoderApplyOne d z) }

theorem zipWith_map_same {α β γ E : Type} (f : β → E → γ) (g : α → β)
    (h : α → E) (xs : List α) :
    List.zipWith f (xs.map g) (xs.map h) = xs.map (fun x => f (g x) (h x)) := by
  induction xs with
  | nil => rfl
  | cons x xs ih => simp [ih]

theorem foldl_map_batch {α β W : Type} (F : W → β → β) (xs : List α) :
    ∀ (ws : List W) (g : α → β),
      ws.foldl (fun zs w => zs.map (F w)) (xs.map g) =
        xs.map (fun x => ws.foldl (fun z w => F w z) (g x)) := by
  intro ws
  induction ws with
  | nil => intro g; rfl
  | cons w ws ih =>
      intro g
      rw [List.foldl_cons, List.map_map, ih]
      simp only [List.foldl_cons, Function.comp]


/-- The batch version of one outer iteration (cross-attend each sample's
latent against that sample's encoding, then map the self-attention stack),
folded `B` times, equals the per-sample fold mapped over the batch. -/
theorem range_fold_batch (ν : Numerics) (cw : AttnWeights)
    (sws : List AttnWeights)
    (enc : List (List (List ℚ)) → List (List ℚ))
    (imgs : List (List (List (List ℚ)))) :
    ∀ (B : Nat) (g : List (List (List ℚ)) → List (List ℚ)),
      (List.range B).foldl
        (fun zs _ => sws.foldl (fun zs w => zs.map (fun z => attnApply ν w z z))
          (List.zipWith (fun z e => attnApply ν cw z e) zs (imgs.map enc)))
        (imgs.map g)
      = imgs.map (fun x =>
          (List.range B).foldl
            (fun z _ => sws.foldl (fun z w => attnApply ν w z z)
              (attnApply ν cw z (enc x))) (g x)) := by
  intro B
  induction B with
  | zero => intro g; simp
  | succ B ih =>
      intro g
      simp only [List.range_succ, List.foldl_append, List.foldl_cons,
        List.foldl_nil]
      rw [ih g, zipWith_map_same, foldl_map_batch]

/-- A forward pass over a batch with the broadcasting layer semantics equals
the per-sample forward pass mapped over the batch: the batch `call` never
mixes information between samples. -/
theorem call_batch_eq_map (ν : Numerics)
    (p : Perceiver LatentParams FourierParams AttnWeights AttnWeights DecoderParams)
    (imgs : List (List (List (List ℚ)))) :
    p.call (batchSem ν) imgs = imgs.map (fun img => p.call (singleSem ν) img) := by
  simp only [Perceiver.call, batchSem, singleSem]
  rw [range_fold_batch ν p.cross_attention p.self_attentions
    (fun img => fourierEncode ν p.fourier_enc.num_bands img) imgs p.num_blocks
    (fun _ => p.latent.init_latent), List.map_map]
  rfl

/-- C6: for every model instance (any weights) and every two samples, the
per-sample logits of one forward pass over the batch of the two samples
equal the logits of running each sample individually through the same
instance: no cross-sample interaction occurs anywhere in the forward
computation. -/
theorem perceiver_batch_of_two_independence (ν : Numerics)
    (p : Perceiver LatentParams FourierParams AttnWeights AttnWeights DecoderParams)
    (s1 s2 : List (List (List ℚ))) :
    p.call (batchSem ν) [s1, s2] =
      [p.call (singleSem ν) s1, p.call (singleSem ν) s2] := by
  rw [call_batch_eq_map]
  rfl

/-- C3: for every constructed model and every input batch, the forward pass
returns one logits row per sample (outer length = batch size) and every row
has exactly `num_classes` entries: the output is a rank-2 array of shape
(batch, num_classes). -/
theorem perceiver_output_shape (ν : Numerics) (θ : ParamInit)
    (B S hc hs ld lc fb nc : Nat) (imgs : List (List (List (List ℚ)))) :
    ((Perceiver.init (concreteLib θ) B S hc hs ld lc fb nc).call
        (batchSem ν) imgs).length = imgs.length ∧
    ((Perceiver.init (concreteLib θ) B S hc hs ld lc fb nc).call
        (batchSem ν) imgs).map List.length = List.replicate imgs.length nc := by
  have hone : ∀ img : List (List (List ℚ)),
      ((Perceiver.init (concreteLib θ) B S hc hs ld lc fb nc).call
        (singleSem ν) img).length = nc := by
    intro img
    simp [Perceiver.call, singleSem, Perceiver.init, concreteLib, decoderApplyOne]
  constructor
  · rw [call_batch_eq_map, List.length_map]
  · rw [call_batch_eq_map, List.map_map]
    calc imgs.map (List.length ∘ fun img =>
          (Perceiver.init (concreteLib θ) B S hc hs ld lc fb nc).call
            (singleSem ν) img)
        = imgs.map (fun _ => nc) :=
          List.map_congr_left (fun img _ => hone img)
      _ = List.replicate imgs.length nc := List.map_const' _ _

/-- Modelled from the spec: construction-time validation (spec section 7,
"Degenerate configuration: zero heads, zero latent_dim, or zero classes —
rejected at construction time").  The validating constructors live in the
`layers` module, which is not among the supplied sources; `initChecked` is
`Perceiver.__init__` preceded by the rejection the spec mandates. -/
def Perceiver.initChecked (lib : LayerLib LA FE CA SA CD)
    (num_blocks num_self_attends_per_block num_cross_heads
     num_self_attend_heads latent_dim latent_channels
     num_freq_bands num_classes : Nat) :
    Except String (Perceiver LA FE CA SA CD) :=
  if num_cross_heads = 0 ∨ num_self_attend_heads = 0 then
    Except.error "degenerate configuration: zero attention heads"
  else if latent_dim = 0 then
    Except.error "degenerate configuration: zero latent_dim"
  else if num_classes = 0 then
    Except.error "degenerate configuration: zero classes"
  else
    Except.ok (Perceiver.init lib num_blocks num_self_attends_per_block
      num_cross_heads num_self_attend_heads latent_dim latent_channels
      num_freq_bands num_classes)

/-- C5: constructing a model with a degenerate configuration — zero
cross-attention or self-attention heads, zero latent_dim, or zero classes —
fails at construction time: the checked constructor never returns a model
instance. -/
theorem initChecked_rejects_degenerate (lib : LayerLib LA FE CA SA CD)
    (B S hc hs ld lc fb nc : Nat)
    (hdeg : hc = 0 ∨ hs = 0 ∨ ld = 0 ∨ nc = 0)
    (p : Perceiver LA FE CA SA CD) :
    Perceiver.initChecked lib B S hc hs ld lc fb nc ≠ Except.ok p := by
  intro heq
  simp only [Perceiver.initChecked] at heq
  split at heq
  · exact Except.noConfusion heq
  · split at heq
    · exact Except.noConfusion heq
    · split at heq
      · exact Except.noConfusion heq
      · rename_i h1 h2 h3
        rcases hdeg with h | h | h | h <;> simp_all

/-- Witness for C5: zero cross-attention heads with the otherwise default
configuration is rejected (at the concrete layer constructors with all-zero
initial weights). -/
theorem initChecked_rejects_degenerate_witness :
    ((0 : Nat) = 0 ∨ (8 : Nat) = 0 ∨ (512 : Nat) = 0 ∨ (2 : Nat) = 0) ∧
    ∀ p, Perceiver.initChecked
        (concreteLib ⟨fun _ _ => 0, fun _ => ⟨[], []⟩, fun _ _ => ⟨[], []⟩,
          fun _ => []⟩) 8 6 0 8 512 1024 64 2 ≠ Except.ok p :=
  ⟨Or.inl rfl, fun p => initChecked_rejects_degenerate _ 8 6 0 8 512 1024 64 2
    (Or.inl rfl) p⟩
